import Mathlib

/-!
Verification of the cleanup-response weatherers (`gnome/weatherers/roc.py`)
against their specification.  The Python source is shallowly embedded:
numeric values become rationals, straight-line fallible code returns a
state paired with an optional runtime-error marker (the first error aborts
the call, freezing the mutations performed so far, exactly as a raised
Python exception would), and the per-step `while` loops are modelled with
an explicit fuel parameter (exhausting fuel harmlessly returns the current
state, which only matters for nontermination that the real code cannot
reach either).

Conventions:
* Rational division stands in for Python float division.  Where the source
  can actually raise `ZeroDivisionError` on a reachable path (plain-float
  division), the embedding tests the denominator explicitly and returns a
  `PyErr`.  `numpy` scalar divisions (inside `_get_thickness`) do not raise
  in Python and are kept total; all theorems touching them carry
  hypotheses keeping those denominators positive.
* Python attribute or name lookups that cannot succeed (the source refers
  to names that are never defined) are embedded as the corresponding
  `PyErr` at the same program point.
-/

/-- Runtime-error markers for the embedded Python code. -/
inductive PyErr where
  | nameError
  | attributeError
  | zeroDivisionError
  | typeError
  | keyError
deriving DecidableEq, Repr

/-! ## Activity window (`Response._is_active`, roc.py lines 114-119)

Timestamps are rationals (seconds); an interval is a `(start, stop)` pair.
The source iterates over `self.timeseries` and returns `True` on the first
interval with `model_time >= t[0]` and
`model_time + timedelta(seconds=time_step / 2) <= t[1]`. -/

def isActive (timeseries : List (ℚ × ℚ)) (model_time time_step : ℚ) : Bool :=
  timeseries.any fun t =>
    decide (t.1 ≤ model_time) && decide (model_time + time_step / 2 ≤ t.2)

/-! ## Spill-container statistics

The handlers only read aggregate statistics of the spill container's
element arrays; those aggregates are the embedded inputs.  `any_area`
models `sc['area'].any()`. -/

structure SC where
  mass_mean : ℚ
  area_mean : ℚ
  any_area : Bool
  frac_water_mean : ℚ
  density : ℚ
deriving DecidableEq, Repr

/-- Exact meters-to-inches conversion performed by the trusted external
`uc.convert('Length', 'meters', 'inches', ·)` (1 inch = 0.0254 m). -/
def meters_to_inches (x : ℚ) : ℚ := x / 0.0254

/-- `Response._get_thickness` (roc.py lines 64-72): mean emulsion volume
divided by mean area, converted to inches.  The `numpy` scalar divisions
here do not raise in Python even at zero denominators. -/
def getThickness (sc : SC) : ℚ :=
  let oil_thickness :=
    if sc.any_area then
      sc.mass_mean / sc.density / (1 - sc.frac_water_mean) / sc.area_mean
    else 0
  meters_to_inches oil_thickness

/-! ## Substance mass batches and `Response._remove_mass_simple`
(roc.py lines 141-146). -/

structure MassData where
  mass : List ℚ
  mass_components : List (List ℚ)
deriving DecidableEq, Repr

/-- `Response._remove_mass_simple`: scale every component row by
`1 - min(amount / total_mass, 1.0)` and re-derive `mass` as the row sums
of the updated `mass_components`. -/
def remove_mass_simple (data : MassData) (amount : ℚ) : MassData :=
  let total_mass := data.mass.sum
  let rm_mass_frac := min (amount / total_mass) 1
  let comps := data.mass_components.map fun row =>
    row.map fun x => (1 - rm_mass_frac) * x
  { mass := comps.map List.sum, mass_components := comps }

/-- A list of nonnegative rationals summing to zero is pointwise zero. -/
lemma list_sum_zero_of_nonneg {l : List ℚ} (hnn : ∀ x ∈ l, 0 ≤ x)
    (hsum : l.sum = 0) : ∀ x ∈ l, x = 0 := by
  induction l with
  | nil => intro x hx; cases hx
  | cons a t ih =>
    have hta : 0 ≤ a := hnn a (List.mem_cons_self a t)
    have htn : ∀ x ∈ t, 0 ≤ x := fun x hx => hnn x (List.mem_cons_of_mem a hx)
    have hts : 0 ≤ t.sum := List.sum_nonneg htn
    have hsum' : a + t.sum = 0 := by simpa using hsum
    have ha : a = 0 := by linarith
    have ht : t.sum = 0 := by linarith
    intro x hx
    rcases List.mem_cons.mp hx with rfl | hx
    · exact ha
    · exact ih htn ht x hx

/-- Summing the all-zero image of a list gives zero. -/
lemma list_sum_map_zero (l : List ℚ) : (l.map fun _ => (0 : ℚ)).sum = 0 := by
  induction l with
  | nil => simp
  | cons a t ih => simp [ih]

/-! ## Claim C9 -/

/-- C9: `is_active(model_time, time_step)` is true iff some configured
interval `[start, stop]` satisfies `start ≤ model_time` and
`model_time + time_step/2 ≤ stop`; in particular, for the interval
`[T, T+2h]` (here `T = 0` seconds), `is_active(T − 1min, 1h)` is false and
`is_active(T, 1h)` is true. -/
theorem c9_is_active_contract :
    (∀ (timeseries : List (ℚ × ℚ)) (model_time time_step : ℚ),
      isActive timeseries model_time time_step = true ↔
        ∃ t ∈ timeseries, t.1 ≤ model_time ∧ model_time + time_step / 2 ≤ t.2) ∧
    isActive [((0 : ℚ), (7200 : ℚ))] (-60) 3600 = false ∧
    isActive [((0 : ℚ), (7200 : ℚ))] 0 3600 = true := by
  refine ⟨?_, ?_, ?_⟩
  · intro timeseries model_time time_step
    simp [isActive, List.any_eq_true, Bool.and_eq_true, decide_eq_true_eq]
  · simp only [isActive, List.any_cons, List.any_nil, Bool.or_false]
    rw [Bool.and_eq_false_iff]
    left
    rw [decide_eq_false_iff_not]
    norm_num
  · simp only [isActive, List.any_cons, List.any_nil, Bool.or_false, Bool.and_eq_true,
      decide_eq_true_eq]
    norm_num

/-! ## Claim C4 -/

/-- C4: `_remove_mass_simple` computes `fraction = min(amount/total_mass, 1)`,
scales every `mass_components` entry by `1 − fraction`, re-derives `mass`
as the row sums of `mass_components`; when `amount` exceeds a positive
`total_mass` every resulting mass is `0` (never negative), and when
`total_mass = 0` the call is a no-op (given that the batch is consistent:
nonnegative component entries whose row sums are the `mass` array). -/
theorem c4_remove_mass_simple (data : MassData) (amount : ℚ)
    (hnn : ∀ r ∈ data.mass_components, ∀ x ∈ r, 0 ≤ x)
    (hcons : data.mass = data.mass_components.map List.sum) :
    (remove_mass_simple data amount).mass_components =
      data.mass_components.map (fun row =>
        row.map fun x => (1 - min (amount / data.mass.sum) 1) * x) ∧
    (remove_mass_simple data amount).mass =
      (remove_mass_simple data amount).mass_components.map List.sum ∧
    (0 < data.mass.sum → data.mass.sum ≤ amount →
      ∀ m ∈ (remove_mass_simple data amount).mass, m = 0) ∧
    (data.mass.sum = 0 → remove_mass_simple data amount = data) := by
  refine ⟨rfl, rfl, ?_, ?_⟩
  · intro hpos hle m hm
    have hfrac : min (amount / data.mass.sum) 1 = 1 :=
      min_eq_right ((one_le_div hpos).mpr hle)
    simp only [remove_mass_simple, hfrac, List.mem_map] at hm
    obtain ⟨row, hrow, rfl⟩ := hm
    obtain ⟨r0, hr0, rfl⟩ := hrow
    have hfun : (fun x : ℚ => (1 - 1) * x) = fun _ => (0 : ℚ) := by
      funext x; ring
    rw [hfun]
    exact list_sum_map_zero r0
  · intro hzero
    have hzrows : ∀ r ∈ data.mass_components, ∀ x ∈ r, x = 0 := by
      have hrow_nonneg : ∀ y ∈ data.mass_components.map List.sum, 0 ≤ y := by
        intro y hy
        simp only [List.mem_map] at hy
        obtain ⟨r, hr, rfl⟩ := hy
        exact List.sum_nonneg (hnn r hr)
      have hrow_sum : (data.mass_components.map List.sum).sum = 0 := by
        rw [← hcons]; exact hzero
      have hrows0 : ∀ y ∈ data.mass_components.map List.sum, y = 0 :=
        list_sum_zero_of_nonneg hrow_nonneg hrow_sum
      intro r hr
      have hr0 : r.sum = 0 := hrows0 r.sum (List.mem_map_of_mem List.sum hr)
      exact list_sum_zero_of_nonneg (hnn r hr) hr0
    have hcomp : data.mass_components.map
        (fun row => row.map fun x => (1 - min (amount / data.mass.sum) 1) * x) =
        data.mass_components := by
      calc data.mass_components.map
            (fun row => row.map fun x => (1 - min (amount / data.mass.sum) 1) * x)
          = data.mass_components.map id := by
            refine List.map_congr_left ?_
            intro r hr
            calc r.map (fun x => (1 - min (amount / data.mass.sum) 1) * x)
                = r.map id := by
                  refine List.map_congr_left ?_
                  intro x hx
                  rw [hzrows r hr x hx]
                  simp
              _ = r := List.map_id r
        _ = data.mass_components := List.map_id _
    show ({ mass := _, mass_components := _ } : MassData) = data
    rw [hcomp, ← hcons]

/-- Witness for C4 at the spec scenario `total_mass = 50`, `amount = 80`
(batch `mass = [30, 20]`), and at a zero-mass batch. -/
theorem c4_remove_mass_simple_witness :
    (remove_mass_simple ⟨[30, 20], [[30], [20]]⟩ 80).mass = [0, 0] ∧
    remove_mass_simple ⟨[(0 : ℚ), 0], [[0], [0]]⟩ 5 = ⟨[0, 0], [[0], [0]]⟩ := by
  have h0 := c4_remove_mass_simple ⟨[(0 : ℚ), 0], [[0], [0]]⟩ 5
    (by intro r hr x hx; fin_cases hr <;> fin_cases hx <;> norm_num)
    (by norm_num)
  have h := c4_remove_mass_simple ⟨[30, 20], [[30], [20]]⟩ 80
    (by intro r hr x hx; fin_cases hr <;> fin_cases hx <;> norm_num)
    (by norm_num)
  have hmass := h.2.2.1 (by norm_num) (by norm_num)
  refine ⟨?_, h0.2.2.2 (by norm_num)⟩
  norm_num [remove_mass_simple, min_def]

/-! ## The Burn operation (roc.py lines 575-805)

`BurnState` carries the configuration fields, the quantities derived in
`prepare_for_model_run`, the boolean phase flags, and the per-step
transients, mirroring the attributes the Python object holds. -/

structure BurnConfig where
  offset : ℚ
  boom_length : ℚ
  boom_draft : ℚ
  speed : ℚ
  throughput : ℚ
  is_on : Bool
  timeseries : List (ℚ × ℚ)
deriving DecidableEq, Repr

structure BurnState where
  boom_capacity : ℚ
  boom_capacity_remaining : ℚ
  swath_width : ℚ
  area : ℚ
  offset_time : ℚ
  area_coverage_rate : ℚ
  speed : ℚ
  throughput : ℚ
  boom_draft : ℚ
  is_collecting : Bool
  is_transiting : Bool
  is_burning : Bool
  is_cleaning : Bool
  is_boom_full : Bool
  time_remaining : ℚ
  burn_time : Option ℚ
  burn_time_remaining : ℚ
  burn_rate : ℚ
  offset_time_remaining : ℚ
  cleaning_time_remaining : ℚ
  ts_collected : ℚ
  ts_burned : ℚ
  time_collecting_in_sim : ℚ
  active : Bool
  is_on : Bool
  timeseries : List (ℚ × ℚ)
deriving DecidableEq, Repr

/-- `Burn.prepare_for_model_run` (roc.py lines 638-658): derive swath
width, containment area, boom capacity and offset time from the
configuration and reset the phase machine to `collecting`.  The flags not
set here keep their `__init__` values.  (The source also registers the
`burned`/`boomed` ledger keys on the spill container and emits report
warnings; the ledger lives in `BurnSC` below and logging has no effect on
state.)  The run can only start when `speed ≠ 0`, otherwise the offset
computation raises at run start. -/
def burnPrepareForModelRun (c : BurnConfig) : BurnState :=
  let swath := 0.3 * c.boom_length
  let area := swath * (0.4125 * c.boom_length / 3) * 2 / 3
  let cap := c.boom_draft / 36 * area
  { boom_capacity := cap
    boom_capacity_remaining := cap
    swath_width := swath
    area := area
    offset_time := c.offset * 0.00987 / c.speed * 60
    area_coverage_rate := swath * c.speed / 430
    speed := c.speed
    throughput := c.throughput
    boom_draft := c.boom_draft
    is_collecting := true
    is_transiting := false
    is_burning := false
    is_cleaning := false
    is_boom_full := false
    time_remaining := 0
    burn_time := none
    burn_time_remaining := 0
    burn_rate := 0
    offset_time_remaining := 0
    cleaning_time_remaining := 0
    ts_collected := 0
    ts_burned := 0
    time_collecting_in_sim := 0
    active := false
    is_on := c.is_on
    timeseries := c.timeseries }

/-- First statement of `Burn._collect` (roc.py lines 699-702): when
`_burn_time` is `None`, derive the burn rate from the current mean water
fraction and initialise the burn timer. -/
def ensureBurnTime (sc : SC) (s : BurnState) : BurnState :=
  match s.burn_time with
  | none =>
    let rate := 0.14 * (100 - sc.frac_water_mean * 100) / 100
    { s with burn_rate := rate
             burn_time := some (0.33 * s.boom_draft / rate * 60)
             burn_time_remaining := 0.33 * s.boom_draft / rate * 60 }
  | some _ => s

/-- `Burn._collect` (roc.py lines 697-733).  The branch that cannot fill
the boom within the remaining budget assigns `_ts_collected` and then
evaluates `self.collected` — an attribute that does not exist anywhere on
the class — so it raises `AttributeError` at line 718 with the budget
still unconsumed.  When the thickness is positive but the effective
collection rate is zero (plain-float division), the time-to-fill division
raises `ZeroDivisionError`. -/
def collectCore (sc : SC) (s1 : BurnState) : BurnState × Option PyErr :=
  let oil_thickness := getThickness sc
  let encounter_rate := 63.13 * s1.swath_width * oil_thickness * s1.speed
  let emulsion_rr := encounter_rate * s1.throughput
  if 0 < oil_thickness ∧ emulsion_rr = 0 then
    (s1, some PyErr.zeroDivisionError)
  else
    let time_to_fill :=
      if 0 < oil_thickness then
        s1.boom_capacity_remaining * 0.17811 * 42 / emulsion_rr
      else 0
    if s1.time_remaining < time_to_fill then
      ({ s1 with ts_collected := emulsion_rr * (s1.time_remaining / 60) },
       some PyErr.attributeError)
    else if 0 < s1.time_remaining then
      ({ s1 with ts_collected := s1.boom_capacity_remaining
                 boom_capacity_remaining := 0
                 is_boom_full := true
                 time_remaining := s1.time_remaining - time_to_fill
                 time_collecting_in_sim := s1.time_collecting_in_sim + time_to_fill
                 offset_time_remaining := s1.offset_time
                 is_collecting := false
                 is_transiting := true }, none)
    else (s1, none)

/-- `Burn._collect` in full: timer initialisation followed by the
collection logic. -/
def burnCollect (sc : SC) (s : BurnState) : BurnState × Option PyErr :=
  collectCore sc (ensureBurnTime sc s)

/-- `Burn._transit` (roc.py lines 735-748). -/
def burnTransit (s : BurnState) : BurnState × Option PyErr :=
  if s.offset_time_remaining < s.time_remaining then
    let s1 := { s with time_remaining := s.time_remaining - s.offset_time_remaining
                       offset_time_remaining := 0
                       is_transiting := false }
    if s.is_boom_full then ({ s1 with is_burning := true }, none)
    else ({ s1 with is_collecting := true }, none)
  else if 0 < s.time_remaining then
    ({ s with offset_time_remaining := s.offset_time_remaining - s.time_remaining
              time_remaining := 0 }, none)
  else (s, none)

/-- `Burn._burn` (roc.py lines 750-767).  Note the source marks the boom
as no longer full on entry, and on completion records
`_boom_capacity − _boom_capacity_remaining` as burned while leaving
`_boom_capacity_remaining` untouched; a mid-burn step adds the burned
fraction back onto `_boom_capacity_remaining` (freeing capacity). -/
def burnBurn (s : BurnState) : BurnState × Option PyErr :=
  let s0 := { s with is_boom_full := false }
  if s0.burn_time_remaining < s0.time_remaining then
    ({ s0 with time_remaining := s0.time_remaining - s0.burn_time_remaining
               burn_time_remaining := 0
               ts_burned := s0.boom_capacity - s0.boom_capacity_remaining
               is_burning := false
               is_cleaning := true
               cleaning_time_remaining := 3600 }, none)
  else if 0 < s0.time_remaining then
    match s0.burn_time with
    | none => (s0, some PyErr.typeError)
    | some bt =>
      let frac_burned := s0.time_remaining / bt
      let burned := s0.boom_capacity * frac_burned
      ({ s0 with boom_capacity_remaining := s0.boom_capacity_remaining + burned
                 ts_burned := burned
                 burn_time_remaining := s0.burn_time_remaining - s0.time_remaining
                 time_remaining := 0 }, none)
  else (s0, none)

/-- `Burn._clean` (roc.py lines 769-780): `_burn_time` is reset to `None`
unconditionally before the one-hour cleaning timer is consumed. -/
def burnClean (s : BurnState) : BurnState × Option PyErr :=
  let s0 := { s with burn_time := none }
  if s0.cleaning_time_remaining < s0.time_remaining then
    ({ s0 with time_remaining := s0.time_remaining - s0.cleaning_time_remaining
               cleaning_time_remaining := 0
               is_cleaning := false
               is_transiting := true
               offset_time_remaining := s0.offset_time }, none)
  else if 0 < s0.time_remaining then
    ({ s0 with cleaning_time_remaining := s0.cleaning_time_remaining - s0.time_remaining
               time_remaining := 0 }, none)
  else (s0, none)

/-- Sequencing for the guarded handler calls inside the Burn phase loop:
the handler fires only when its guard holds and no earlier handler of the
same iteration raised. -/
def guardStep (g : BurnState → Bool) (f : BurnState → BurnState × Option PyErr)
    (r : BurnState × Option PyErr) : BurnState × Option PyErr :=
  match r with
  | (s, some e) => (s, some e)
  | (s, none) => if g s then f s else (s, none)

/-- One iteration of the `while self._time_remaining > 0` body of
`Burn.prepare_for_model_step` (roc.py lines 681-695): the five guarded
handler calls in source order. -/
def burnLoopBody (sc : SC) (s : BurnState) : BurnState × Option PyErr :=
  guardStep (fun s => s.is_transiting && !s.is_boom_full) burnTransit
    (guardStep (fun s => s.is_cleaning) burnClean
      (guardStep (fun s => s.is_burning) burnBurn
        (guardStep (fun s => s.is_transiting && s.is_boom_full) burnTransit
          (guardStep (fun s => s.is_collecting) (burnCollect sc) (s, none)))))

/-- The Burn phase loop, with fuel standing in for the unbounded `while`.
Running out of fuel returns the current state unchanged (this only
differs from the source on non-terminating executions). -/
def burnLoop (sc : SC) : Nat → BurnState → BurnState × Option PyErr
  | 0, s => (s, none)
  | fuel + 1, s =>
    if 0 < s.time_remaining then
      match burnLoopBody sc s with
      | (s1, none) => burnLoop sc fuel s1
      | (s1, some e) => (s1, some e)
    else (s, none)

/-- `Burn.prepare_for_model_step` (roc.py lines 660-695): reset the
per-step transients, gate on the activity window (the `active` property
of the base weatherer combines the configured on/off flag with the
window flag — modelled from the spec, the base class is outside this
module), and run the phase loop over the step's time budget. -/
def burnPrepareForModelStep (sc : SC) (time_step model_time : ℚ) (fuel : Nat)
    (s : BurnState) : BurnState × Option PyErr :=
  let s := { s with ts_collected := 0
                    ts_burned := 0
                    active := s.is_on && isActive s.timeseries model_time time_step }
  if s.active then burnLoop sc fuel { s with time_remaining := time_step }
  else (s, none)

/-! ### The Burn side of `weather_elements` (roc.py lines 782-805) -/

structure BurnLedger where
  burned : ℚ
  boomed : ℚ
  by_id : ℚ
deriving DecidableEq, Repr

/-- The part of the spill container `Burn.weather_elements` touches: the
element count, one substance batch (the source iterates substance
batches; recovery handles a single substance) and the mass-balance
ledger. -/
structure BurnSC where
  num_elements : Nat
  data : MassData
  mass_balance : BurnLedger
deriving DecidableEq, Repr

/-- `Burn.weather_elements`: returns immediately when the operation is
inactive or the container is empty; otherwise adds the collected amount
to `boomed` and the per-operation key and removes it from the substance
batch, then moves the burned amount from `boomed` to `burned`. -/
def burnWeatherElements (s : BurnState) (sc : BurnSC) : BurnSC :=
  if s.active = false ∨ sc.num_elements = 0 then sc
  else if sc.data.mass.length = 0 then sc
  else
    let sc1 :=
      if s.ts_collected ≠ 0 then
        { sc with data := remove_mass_simple sc.data s.ts_collected
                  mass_balance :=
                    { sc.mass_balance with
                        boomed := sc.mass_balance.boomed + s.ts_collected
                        by_id := sc.mass_balance.by_id + s.ts_collected } }
      else sc
    if s.ts_burned ≠ 0 then
      { sc1 with mass_balance :=
          { sc1.mass_balance with
              burned := sc1.mass_balance.burned + s.ts_burned
              boomed := sc1.mass_balance.boomed - s.ts_burned } }
    else sc1

/-- Unfolding lemma for one iteration of the Burn phase loop. -/
lemma burnLoop_succ (sc : SC) (fuel : Nat) (s : BurnState) :
    burnLoop sc (fuel + 1) s =
      if 0 < s.time_remaining then
        match burnLoopBody sc s with
        | (s1, none) => burnLoop sc fuel s1
        | (s1, some e) => (s1, some e)
      else (s, none) := rfl

/-! ## Claim C2 -/

/-- A Burn configuration for which the collection phase cannot fill the
boom within a one-second budget. -/
def burnCfgC2 : BurnConfig :=
  { offset := 10, boom_length := 100, boom_draft := 36, speed := 1,
    throughput := 1, is_on := true, timeseries := [(0, 7200)] }

/-- Container statistics giving an oil thickness of exactly one inch. -/
def scC2 : SC :=
  { mass_mean := 127, area_mean := 5000, any_area := true,
    frac_water_mean := 0, density := 1 }

/-- C2 (burn step aborts mid-budget): on an active Burn step whose
collection phase cannot fill the boom within the budget, the per-step
loop raises `AttributeError` (`self.collected`, roc.py line 718) and the
full one-second budget is still unconsumed — the call does not consume
exactly `time_step` across its phase handlers. -/
theorem c2_burn_step_aborts_with_budget_unconsumed :
    (burnPrepareForModelStep scC2 1 0 1 (burnPrepareForModelRun burnCfgC2)).2 =
      some PyErr.attributeError ∧
    (burnPrepareForModelStep scC2 1 0 1 (burnPrepareForModelRun burnCfgC2)).1.time_remaining
      = 1 := by
  have h : burnPrepareForModelStep scC2 1 0 1 (burnPrepareForModelRun burnCfgC2) =
      burnLoop scC2 1
        { burnPrepareForModelRun burnCfgC2 with
            ts_collected := 0, ts_burned := 0, active := true, time_remaining := 1 } := by
    norm_num [burnPrepareForModelStep, burnPrepareForModelRun, burnCfgC2, isActive]
  rw [h, show (1 : Nat) = 0 + 1 from rfl, burnLoop_succ]
  norm_num [burnLoopBody, guardStep, burnCollect, collectCore, ensureBurnTime, getThickness,
    meters_to_inches, burnPrepareForModelRun, burnCfgC2, scC2]

/-! ## Claim C6 -/

/-- Container statistics with no oil: zero mean mass, hence zero computed
thickness. -/
def scC6 : SC :=
  { mass_mean := 0, area_mean := 5, any_area := true,
    frac_water_mean := 0, density := 1 }

/-- A Burn state in the collecting phase with 40 units of boom capacity
remaining out of 100 and 100 seconds of budget left. -/
def burnStateC6 : BurnState :=
  { boom_capacity := 100, boom_capacity_remaining := 40, swath_width := 30,
    area := 0, offset_time := 7, area_coverage_rate := 0, speed := 1,
    throughput := 1, boom_draft := 14, is_collecting := true,
    is_transiting := false, is_burning := false, is_cleaning := false,
    is_boom_full := false, time_remaining := 100, burn_time := none,
    burn_time_remaining := 0, burn_rate := 0, offset_time_remaining := 0,
    cleaning_time_remaining := 0, ts_collected := 0, ts_burned := 0,
    time_collecting_in_sim := 0, active := true, is_on := true,
    timeseries := [] }

/-- C6 (zero thickness is not a no-op): with computed oil thickness `0`
the collection handler raises nothing (in particular no division by zero,
and time-to-fill is taken as `0`), but instead of a no-op it "collects"
the entire remaining boom capacity (40 units with zero oil present),
zeroes the remaining capacity, marks the boom full and transitions to
transiting. -/
theorem c6_zero_thickness_collects_capacity :
    getThickness scC6 = 0 ∧
    (burnCollect scC6 burnStateC6).2 = none ∧
    (burnCollect scC6 burnStateC6).1.ts_collected = 40 ∧
    (burnCollect scC6 burnStateC6).1.boom_capacity_remaining = 0 ∧
    (burnCollect scC6 burnStateC6).1.is_boom_full = true ∧
    (burnCollect scC6 burnStateC6).1.is_collecting = false ∧
    (burnCollect scC6 burnStateC6).1.is_transiting = true ∧
    (burnCollect scC6 burnStateC6).1.time_remaining = 100 := by
  norm_num [burnCollect, collectCore, ensureBurnTime, getThickness, meters_to_inches,
    scC6, burnStateC6]

/-! ## Claim C5 -/

/-- A Burn state at the start of its burning phase: the boom was filled
(remaining capacity 0), the burn timer is 100 seconds, and 50 seconds of
step budget remain. -/
def burnStateA : BurnState :=
  { boom_capacity := 100, boom_capacity_remaining := 0, swath_width := 30,
    area := 0, offset_time := 7, area_coverage_rate := 0, speed := 1,
    throughput := 1, boom_draft := 14, is_collecting := false,
    is_transiting := false, is_burning := true, is_cleaning := false,
    is_boom_full := false, time_remaining := 50, burn_time := some 100,
    burn_time_remaining := 100, burn_rate := 0.14, offset_time_remaining := 0,
    cleaning_time_remaining := 0, ts_collected := 0, ts_burned := 0,
    time_collecting_in_sim := 0, active := true, is_on := true,
    timeseries := [] }

/-- A Burn state mid-burn (20 of 100 burn-seconds left, capacity 30
already freed by earlier mid-burn steps) with 50 seconds of budget: the
burn completes this step. -/
def burnStateB : BurnState :=
  { boom_capacity := 100, boom_capacity_remaining := 30, swath_width := 30,
    area := 0, offset_time := 7, area_coverage_rate := 0, speed := 1,
    throughput := 1, boom_draft := 14, is_collecting := false,
    is_transiting := false, is_burning := true, is_cleaning := false,
    is_boom_full := false, time_remaining := 50, burn_time := some 100,
    burn_time_remaining := 20, burn_rate := 0.14, offset_time_remaining := 0,
    cleaning_time_remaining := 0, ts_collected := 0, ts_burned := 0,
    time_collecting_in_sim := 0, active := true, is_on := true,
    timeseries := [] }

/-- C5 counterexample: a mid-burn (partial) step does not reduce
`boom_capacity_remaining` — it increases it from 0 to 50 — and a
completing step does not zero the remaining capacity — it leaves it at
30, even though it does transition to cleaning. -/
theorem c5_burning_phase_counterexample :
    (burnBurn burnStateA).1.boom_capacity_remaining = 50 ∧
    ¬((burnBurn burnStateA).1.boom_capacity_remaining ≤
        burnStateA.boom_capacity_remaining) ∧
    (burnBurn burnStateB).1.is_cleaning = true ∧
    (burnBurn burnStateB).1.boom_capacity_remaining = 30 ∧
    ¬((burnBurn burnStateB).1.boom_capacity_remaining = 0) := by
  norm_num [burnBurn, burnStateA, burnStateB]

/-- C5 amended: in the burning phase, a step that ends mid-burn
(`0 < time_remaining ≤ burn_time_remaining`) increases
`boom_capacity_remaining` by `boom_capacity × time_remaining / burn_time`
(freeing capacity proportionally to the time burned) and records that
amount as the partial burned mass; a step that completes the burn
(`burn_time_remaining < time_remaining`) records
`boom_capacity − boom_capacity_remaining` as burned, leaves
`boom_capacity_remaining` unchanged, and transitions to cleaning with a
3600-second cleaning timer. -/
theorem c5_burning_phase (s : BurnState) (bt : ℚ)
    (hbt : s.burn_time = some bt) :
    (s.burn_time_remaining < s.time_remaining →
      (burnBurn s).2 = none ∧
      (burnBurn s).1.ts_burned = s.boom_capacity - s.boom_capacity_remaining ∧
      (burnBurn s).1.boom_capacity_remaining = s.boom_capacity_remaining ∧
      (burnBurn s).1.is_burning = false ∧
      (burnBurn s).1.is_cleaning = true ∧
      (burnBurn s).1.cleaning_time_remaining = 3600 ∧
      (burnBurn s).1.time_remaining = s.time_remaining - s.burn_time_remaining) ∧
    (0 < s.time_remaining → s.time_remaining ≤ s.burn_time_remaining →
      (burnBurn s).2 = none ∧
      (burnBurn s).1.boom_capacity_remaining =
        s.boom_capacity_remaining + s.boom_capacity * (s.time_remaining / bt) ∧
      (burnBurn s).1.ts_burned = s.boom_capacity * (s.time_remaining / bt) ∧
      (burnBurn s).1.burn_time_remaining = s.burn_time_remaining - s.time_remaining ∧
      (burnBurn s).1.time_remaining = 0 ∧
      (burnBurn s).1.is_burning = s.is_burning) := by
  constructor
  · intro hfull
    simp only [burnBurn]
    rw [if_pos hfull]
    exact ⟨rfl, rfl, rfl, rfl, rfl, rfl, rfl⟩
  · intro hpos hpart
    simp only [burnBurn, hbt]
    rw [if_neg (not_lt.mpr hpart), if_pos hpos]
    exact ⟨rfl, rfl, rfl, rfl, rfl, rfl⟩

/-- Witness for the amended C5 at the two concrete burning states. -/
theorem c5_burning_phase_witness :
    (burnBurn burnStateA).1.ts_burned = 50 ∧
    (burnBurn burnStateB).1.ts_burned = 70 := by
  have hA := (c5_burning_phase burnStateA 100 rfl).2
    (by norm_num [burnStateA]) (by norm_num [burnStateA])
  have hB := (c5_burning_phase burnStateB 100 rfl).1
    (by norm_num [burnStateB])
  constructor
  · rw [hA.2.2.1]
    norm_num [burnStateA]
  · rw [hB.2.1]
    norm_num [burnStateB]

/-! ## Claim C3: resource-counter bounds

The Burn phase machine is analysed through an inductive invariant
`BurnInv`.  `boom_capacity_remaining` is zeroed when the boom fills and
grows back by `boom_capacity * t / burn_time` during mid-burn steps; the
invariant tracks the algebraic relation making the growth bounded by the
capacity. -/

/-- Physically meaningful per-step container statistics: the mean water
fraction of spill elements lies in `[0, 1)`.  (At `frac_water = 1` the
burn-rate denominator degenerates; such containers are excluded from the
reachable-state relation.) -/
def ValidSC (sc : SC) : Prop :=
  0 ≤ sc.frac_water_mean ∧ sc.frac_water_mean < 1

/-- Exactly one of the four phase flags is set. -/
def OnePhase (s : BurnState) : Prop :=
  (s.is_collecting = true ∧ s.is_transiting = false ∧
    s.is_burning = false ∧ s.is_cleaning = false) ∨
  (s.is_collecting = false ∧ s.is_transiting = true ∧
    s.is_burning = false ∧ s.is_cleaning = false) ∨
  (s.is_collecting = false ∧ s.is_transiting = false ∧
    s.is_burning = true ∧ s.is_cleaning = false) ∨
  (s.is_collecting = false ∧ s.is_transiting = false ∧
    s.is_burning = false ∧ s.is_cleaning = true)

/-- The inductive invariant of the Burn phase machine. -/
structure BurnInv (s : BurnState) : Prop where
  cap_nonneg : 0 ≤ s.boom_capacity
  rem_nonneg : 0 ≤ s.boom_capacity_remaining
  rem_le_cap : s.boom_capacity_remaining ≤ s.boom_capacity
  draft_nonneg : 0 ≤ s.boom_draft
  bt_nonneg : ∀ bt, s.burn_time = some bt → 0 ≤ bt
  one_phase : OnePhase s
  burning_inv : s.is_burning = true → ∃ bt, s.burn_time = some bt ∧
    0 ≤ s.burn_time_remaining ∧ s.burn_time_remaining ≤ bt ∧
    s.boom_capacity_remaining * bt ≤
      s.boom_capacity * (bt - s.burn_time_remaining)
  full_inv : s.is_boom_full = true → s.boom_capacity_remaining = 0 ∧
    ∃ bt, s.burn_time = some bt ∧ s.burn_time_remaining = bt
  collect_bt : s.is_collecting = true →
    ∀ bt, s.burn_time = some bt → s.burn_time_remaining = bt
  transit_bt : s.is_transiting = true → s.is_boom_full = false →
    s.burn_time = none
  cleaning_full : s.is_cleaning = true → s.is_boom_full = false

/-- Two contradictory boolean facts prove anything. -/
def bool_tf {C : Sort _} {b : Bool} (h1 : b = true) (h2 : b = false) : C :=
  Bool.noConfusion (h2 ▸ h1)

lemma onePhase_collecting {s : BurnState} (hp : OnePhase s)
    (hc : s.is_collecting = true) :
    s.is_transiting = false ∧ s.is_burning = false ∧ s.is_cleaning = false := by
  rcases hp with ⟨_, a, b, c⟩ | ⟨a, _⟩ | ⟨a, _⟩ | ⟨a, _⟩
  · exact ⟨a, b, c⟩
  all_goals exact bool_tf hc a

lemma onePhase_transiting {s : BurnState} (hp : OnePhase s)
    (ht : s.is_transiting = true) :
    s.is_collecting = false ∧ s.is_burning = false ∧ s.is_cleaning = false := by
  rcases hp with ⟨_, a, _⟩ | ⟨a, _, b, c⟩ | ⟨_, a, _⟩ | ⟨_, a, _⟩
  · exact bool_tf ht a
  · exact ⟨a, b, c⟩
  all_goals exact bool_tf ht a

lemma onePhase_burning {s : BurnState} (hp : OnePhase s)
    (hb : s.is_burning = true) :
    s.is_collecting = false ∧ s.is_transiting = false ∧ s.is_cleaning = false := by
  rcases hp with ⟨_, _, a, _⟩ | ⟨_, _, a, _⟩ | ⟨a, b, _, c⟩ | ⟨_, _, a, _⟩
  · exact bool_tf hb a
  · exact bool_tf hb a
  · exact ⟨a, b, c⟩
  · exact bool_tf hb a

lemma onePhase_cleaning {s : BurnState} (hp : OnePhase s)
    (hc : s.is_cleaning = true) :
    s.is_collecting = false ∧ s.is_transiting = false ∧ s.is_burning = false := by
  rcases hp with ⟨_, _, _, a⟩ | ⟨_, _, _, a⟩ | ⟨_, _, _, a⟩ | ⟨a, b, c, _⟩
  · exact bool_tf hc a
  · exact bool_tf hc a
  · exact bool_tf hc a
  · exact ⟨a, b, c⟩

/-- `ensureBurnTime` preserves the invariant and leaves the state in
collecting phase with a set, nonnegative burn timer equal to the timer
remaining. -/
lemma ensureBurnTime_inv (sc : SC) (s : BurnState) (hsc : ValidSC sc)
    (hc : s.is_collecting = true) (h : BurnInv s) :
    BurnInv (ensureBurnTime sc s) ∧
    (ensureBurnTime sc s).is_collecting = true ∧
    ∃ bt, (ensureBurnTime sc s).burn_time = some bt ∧
      (ensureBurnTime sc s).burn_time_remaining = bt := by
  obtain ⟨hph1, hph2, hph3⟩ := onePhase_collecting h.one_phase hc
  cases hbt : s.burn_time with
  | some bt =>
    simp only [ensureBurnTime, hbt]
    exact ⟨h, hc, bt, rfl, h.collect_bt hc bt hbt⟩
  | none =>
    have hrate : 0 < 0.14 * (100 - sc.frac_water_mean * 100) / 100 := by
      have := hsc.2
      nlinarith
    have hbt0 : 0 ≤ 0.33 * s.boom_draft /
        (0.14 * (100 - sc.frac_water_mean * 100) / 100) * 60 := by
      have hdr := h.draft_nonneg
      have h1 : 0 ≤ 0.33 * s.boom_draft := by nlinarith
      have h2 := div_nonneg h1 hrate.le
      nlinarith
    have hbf : s.is_boom_full = false := by
      cases hbf : s.is_boom_full with
      | false => rfl
      | true =>
        obtain ⟨_, bt, hbt', _⟩ := h.full_inv hbf
        rw [hbt] at hbt'
        exact Option.noConfusion hbt'
    simp only [ensureBurnTime, hbt]
    refine ⟨⟨h.cap_nonneg, h.rem_nonneg, h.rem_le_cap, h.draft_nonneg,
      ?_, ?_, ?_, ?_, ?_, ?_, ?_⟩, hc, _, rfl, rfl⟩
    · intro bt hbt'
      injection hbt' with hbt'
      rw [← hbt']
      exact hbt0
    · exact h.one_phase
    · intro hb
      exact bool_tf hb hph2
    · intro hbf'
      exact bool_tf hbf' hbf
    · intro _ bt hbt'
      injection hbt'
    · intro htr
      exact bool_tf htr hph1
    · intro hcl
      exact bool_tf hcl hph3

/-- `collectCore` preserves the invariant from any collecting state whose
burn timer is set and untouched. -/
lemma collectCore_inv (sc : SC) (s1 : BurnState)
    (hc : s1.is_collecting = true) (h : BurnInv s1)
    (hbt : ∃ bt, s1.burn_time = some bt ∧ s1.burn_time_remaining = bt) :
    BurnInv (collectCore sc s1).1 := by
  obtain ⟨bt, hbtEq, hbtr⟩ := hbt
  obtain ⟨hph1, hph2, hph3⟩ := onePhase_collecting h.one_phase hc
  simp only [collectCore]
  split_ifs
  all_goals first
    | exact h
    | exact ⟨h.cap_nonneg, h.rem_nonneg, h.rem_le_cap, h.draft_nonneg,
        h.bt_nonneg, h.one_phase, h.burning_inv, h.full_inv, h.collect_bt,
        h.transit_bt, h.cleaning_full⟩
    | exact ⟨h.cap_nonneg, le_refl 0, h.cap_nonneg, h.draft_nonneg,
        h.bt_nonneg,
        Or.inr (Or.inl ⟨rfl, rfl, hph2, hph3⟩),
        fun hb => bool_tf hb hph2,
        fun _ => ⟨rfl, bt, hbtEq, hbtr⟩,
        fun hcc => Bool.noConfusion hcc,
        fun _ hbf => Bool.noConfusion hbf,
        fun hcl => bool_tf hcl hph3⟩

/-- `Burn._collect` preserves the invariant. -/
lemma burnCollect_inv (sc : SC) (s : BurnState) (hsc : ValidSC sc)
    (hc : s.is_collecting = true) (h : BurnInv s) :
    BurnInv (burnCollect sc s).1 := by
  obtain ⟨h1, h2, bt, h3, h4⟩ := ensureBurnTime_inv sc s hsc hc h
  exact collectCore_inv sc (ensureBurnTime sc s) h2 h1 ⟨bt, h3, h4⟩

/-- `Burn._transit` preserves the invariant. -/
lemma burnTransit_inv (s : BurnState) (ht : s.is_transiting = true)
    (h : BurnInv s) : BurnInv (burnTransit s).1 := by
  obtain ⟨hcoll, hburn, hclean⟩ := onePhase_transiting h.one_phase ht
  simp only [burnTransit]
  split_ifs with h1 h2 h3
  · -- transit completes with the boom full: enter burning
    obtain ⟨hrem0, bt, hbtEq, hbtr⟩ := h.full_inv h2
    have hbt0 : 0 ≤ bt := h.bt_nonneg bt hbtEq
    refine ⟨h.cap_nonneg, h.rem_nonneg, h.rem_le_cap, h.draft_nonneg,
      h.bt_nonneg, ?_, ?_, ?_, ?_, ?_, ?_⟩
    · exact Or.inr (Or.inr (Or.inl ⟨hcoll, rfl, rfl, hclean⟩))
    · intro _
      refine ⟨bt, hbtEq, ?_, ?_, ?_⟩
      · rw [hbtr]; exact hbt0
      · rw [hbtr]
      · rw [hrem0, hbtr]
        simp
    · intro _
      exact ⟨hrem0, bt, hbtEq, hbtr⟩
    · intro hcc
      exact bool_tf hcc hcoll
    · intro htr'
      exact Bool.noConfusion htr'
    · intro hcl
      exact bool_tf hcl hclean
  · -- transit completes with the boom empty: resume collecting
    have hbf : s.is_boom_full = false := by
      cases hbf : s.is_boom_full with
      | false => rfl
      | true => exact absurd hbf h2
    have hbtnone : s.burn_time = none := h.transit_bt ht hbf
    refine ⟨h.cap_nonneg, h.rem_nonneg, h.rem_le_cap, h.draft_nonneg,
      ?_, ?_, ?_, ?_, ?_, ?_, ?_⟩
    · intro bt hbt'
      rw [hbtnone] at hbt'
      exact Option.noConfusion hbt'
    · exact Or.inl ⟨rfl, rfl, hburn, hclean⟩
    · intro hb
      exact bool_tf hb hburn
    · intro hbf'
      exact bool_tf hbf' hbf
    · intro _ bt hbt'
      rw [hbtnone] at hbt'
      exact Option.noConfusion hbt'
    · intro htr'
      exact Bool.noConfusion htr'
    · intro hcl
      exact bool_tf hcl hclean
  · -- mid-transit step: only the timers move
    exact ⟨h.cap_nonneg, h.rem_nonneg, h.rem_le_cap, h.draft_nonneg,
      h.bt_nonneg, h.one_phase, h.burning_inv, h.full_inv, h.collect_bt,
      h.transit_bt, h.cleaning_full⟩
  · exact h

/-- `Burn._burn` preserves the invariant. -/
lemma burnBurn_inv (s : BurnState) (hb : s.is_burning = true)
    (h : BurnInv s) : BurnInv (burnBurn s).1 := by
  obtain ⟨hcoll, htr, hclean⟩ := onePhase_burning h.one_phase hb
  obtain ⟨bt, hbtEq, hbtr0, hbtrle, hkey⟩ := h.burning_inv hb
  have hbt0 : 0 ≤ bt := h.bt_nonneg bt hbtEq
  simp only [burnBurn]
  split_ifs with h1 h2
  · -- burn completes: record capacity − remaining, enter cleaning
    refine ⟨h.cap_nonneg, h.rem_nonneg, h.rem_le_cap, h.draft_nonneg,
      h.bt_nonneg, ?_, ?_, ?_, ?_, ?_, ?_⟩
    · exact Or.inr (Or.inr (Or.inr ⟨hcoll, htr, rfl, rfl⟩))
    · intro hb'
      exact Bool.noConfusion hb'
    · intro hbf'
      exact Bool.noConfusion hbf'
    · intro hcc
      exact bool_tf hcc hcoll
    · intro htr'
      exact bool_tf htr' htr
    · intro _
      rfl
  · -- mid-burn step: capacity is freed proportionally
    simp only [hbtEq]
    have ht1 : s.time_remaining ≤ s.burn_time_remaining := not_lt.mp h1
    have hbtpos : 0 < bt :=
      lt_of_lt_of_le h2 (le_trans ht1 hbtrle)
    have hdiv0 : 0 ≤ s.time_remaining / bt := div_nonneg h2.le hbt0
    have hkey' : (s.boom_capacity_remaining +
        s.boom_capacity * (s.time_remaining / bt)) * bt ≤
        s.boom_capacity * (bt - (s.burn_time_remaining - s.time_remaining)) := by
      have hcancel : s.time_remaining / bt * bt = s.time_remaining :=
        div_mul_cancel₀ _ (ne_of_gt hbtpos)
      calc (s.boom_capacity_remaining +
            s.boom_capacity * (s.time_remaining / bt)) * bt
          = s.boom_capacity_remaining * bt +
            s.boom_capacity * (s.time_remaining / bt * bt) := by ring
        _ = s.boom_capacity_remaining * bt +
            s.boom_capacity * s.time_remaining := by rw [hcancel]
        _ ≤ s.boom_capacity * (bt - s.burn_time_remaining) +
            s.boom_capacity * s.time_remaining := by linarith
        _ = s.boom_capacity * (bt - (s.burn_time_remaining - s.time_remaining)) := by
            ring
    have hrem' : 0 ≤ s.boom_capacity_remaining +
        s.boom_capacity * (s.time_remaining / bt) :=
      add_nonneg h.rem_nonneg (mul_nonneg h.cap_nonneg hdiv0)
    have hle' : s.boom_capacity_remaining +
        s.boom_capacity * (s.time_remaining / bt) ≤ s.boom_capacity := by
      have hub : s.boom_capacity * (bt - (s.burn_time_remaining - s.time_remaining)) ≤
          s.boom_capacity * bt := by
        have : bt - (s.burn_time_remaining - s.time_remaining) ≤ bt := by linarith
        exact mul_le_mul_of_nonneg_left this h.cap_nonneg
      have := le_trans hkey' hub
      exact (mul_le_mul_right hbtpos).mp this
    refine ⟨h.cap_nonneg, hrem', hle', h.draft_nonneg, ?_, ?_, ?_, ?_, ?_, ?_, ?_⟩
    · intro bt' hbt'
      injection hbt' with hbt'
      rw [← hbt']
      exact hbt0
    · exact Or.inr (Or.inr (Or.inl ⟨hcoll, htr, hb, hclean⟩))
    · intro _
      exact ⟨bt, rfl, by linarith, by linarith, hkey'⟩
    · intro hbf'
      exact Bool.noConfusion hbf'
    · intro hcc
      exact bool_tf hcc hcoll
    · intro htr'
      exact bool_tf htr' htr
    · intro _
      rfl
  · -- no budget left: only the boom-full flag was cleared
    refine ⟨h.cap_nonneg, h.rem_nonneg, h.rem_le_cap, h.draft_nonneg,
      h.bt_nonneg, ?_, ?_, ?_, ?_, ?_, ?_⟩
    · exact Or.inr (Or.inr (Or.inl ⟨hcoll, htr, hb, hclean⟩))
    · intro _
      exact ⟨bt, hbtEq, hbtr0, hbtrle, hkey⟩
    · intro hbf'
      exact Bool.noConfusion hbf'
    · intro hcc
      exact bool_tf hcc hcoll
    · intro htr'
      exact bool_tf htr' htr
    · intro _
      rfl

/-- `Burn._clean` preserves the invariant. -/
lemma burnClean_inv (s : BurnState) (hcl : s.is_cleaning = true)
    (h : BurnInv s) : BurnInv (burnClean s).1 := by
  obtain ⟨hcoll, htr, hburn⟩ := onePhase_cleaning h.one_phase hcl
  have hbf : s.is_boom_full = false := h.cleaning_full hcl
  simp only [burnClean]
  split_ifs with h1 h2
  · -- cleaning completes: return transit with a cleared burn timer
    refine ⟨h.cap_nonneg, h.rem_nonneg, h.rem_le_cap, h.draft_nonneg,
      ?_, ?_, ?_, ?_, ?_, ?_, ?_⟩
    · intro bt hbt'
      exact Option.noConfusion hbt'
    · exact Or.inr (Or.inl ⟨hcoll, rfl, hburn, rfl⟩)
    · intro hb
      exact bool_tf hb hburn
    · intro hbf'
      exact bool_tf hbf' hbf
    · intro hcc
      exact bool_tf hcc hcoll
    · intro _ _
      rfl
    · intro hcl'
      exact Bool.noConfusion hcl'
  · -- mid-cleaning step
    refine ⟨h.cap_nonneg, h.rem_nonneg, h.rem_le_cap, h.draft_nonneg,
      ?_, ?_, ?_, ?_, ?_, ?_, ?_⟩
    · intro bt hbt'
      exact Option.noConfusion hbt'
    · exact Or.inr (Or.inr (Or.inr ⟨hcoll, htr, hburn, hcl⟩))
    · intro hb
      exact bool_tf hb hburn
    · intro hbf'
      exact bool_tf hbf' hbf
    · intro hcc
      exact bool_tf hcc hcoll
    · intro htr'
      exact bool_tf htr' htr
    · intro _
      exact hbf
  · refine ⟨h.cap_nonneg, h.rem_nonneg, h.rem_le_cap, h.draft_nonneg,
      ?_, ?_, ?_, ?_, ?_, ?_, ?_⟩
    · intro bt hbt'
      exact Option.noConfusion hbt'
    · exact Or.inr (Or.inr (Or.inr ⟨hcoll, htr, hburn, hcl⟩))
    · intro hb
      exact bool_tf hb hburn
    · intro hbf'
      exact bool_tf hbf' hbf
    · intro hcc
      exact bool_tf hcc hcoll
    · intro htr'
      exact bool_tf htr' htr
    · intro _
      exact hbf

/-- Guarded handler steps preserve the invariant. -/
lemma guardStep_inv (g : BurnState → Bool)
    (f : BurnState → BurnState × Option PyErr)
    (hf : ∀ s, g s = true → BurnInv s → BurnInv (f s).1)
    (r : BurnState × Option PyErr) (h : BurnInv r.1) :
    BurnInv (guardStep g f r).1 := by
  obtain ⟨s, e⟩ := r
  cases e with
  | some e => exact h
  | none =>
    simp only [guardStep]
    split_ifs with hg
    · exact hf s hg h
    · exact h

/-- One iteration of the Burn phase loop preserves the invariant. -/
lemma burnLoopBody_inv (sc : SC) (hsc : ValidSC sc) (s : BurnState)
    (h : BurnInv s) : BurnInv (burnLoopBody sc s).1 := by
  unfold burnLoopBody
  refine guardStep_inv _ _ ?_ _ (guardStep_inv _ _ ?_ _ (guardStep_inv _ _ ?_ _
    (guardStep_inv _ _ ?_ _ (guardStep_inv _ _ ?_ _ h))))
  · intro s hg hi
    exact burnTransit_inv s ((Bool.and_eq_true _ _).mp hg).1 hi
  · intro s hg hi
    exact burnClean_inv s hg hi
  · intro s hg hi
    exact burnBurn_inv s hg hi
  · intro s hg hi
    exact burnTransit_inv s ((Bool.and_eq_true _ _).mp hg).1 hi
  · intro s hg hi
    exact burnCollect_inv sc s hsc hg hi

/-- The fuelled Burn phase loop preserves the invariant. -/
lemma burnLoop_inv (sc : SC) (hsc : ValidSC sc) :
    ∀ (fuel : Nat) (s : BurnState), BurnInv s → BurnInv (burnLoop sc fuel s).1 := by
  intro fuel
  induction fuel with
  | zero => intro s h; exact h
  | succ n ih =>
    intro s h
    rw [burnLoop_succ]
    split_ifs with ht
    · cases hb : burnLoopBody sc s with
      | mk s1 e =>
        have hinv : BurnInv s1 := by
          have := burnLoopBody_inv sc hsc s h
          rw [hb] at this
          exact this
        cases e with
        | none => exact ih s1 hinv
        | some e => exact hinv
    · exact h

/-- Stability of the invariant under the per-step transient reset. -/
lemma burnInv_transients (s : BurnState) (h : BurnInv s) (a b tr : ℚ)
    (act : Bool) :
    BurnInv { s with ts_collected := a, ts_burned := b, active := act,
                     time_remaining := tr } :=
  ⟨h.cap_nonneg, h.rem_nonneg, h.rem_le_cap, h.draft_nonneg, h.bt_nonneg,
    h.one_phase, h.burning_inv, h.full_inv, h.collect_bt, h.transit_bt,
    h.cleaning_full⟩

/-- `Burn.prepare_for_model_step` preserves the invariant. -/
lemma burnStep_inv (sc : SC) (time_step model_time : ℚ) (fuel : Nat)
    (s : BurnState) (hsc : ValidSC sc) (h : BurnInv s) :
    BurnInv (burnPrepareForModelStep sc time_step model_time fuel s).1 := by
  simp only [burnPrepareForModelStep]
  split_ifs with ha
  · exact burnLoop_inv sc hsc fuel _
      (burnInv_transients s h 0 0 time_step _)
  · exact burnInv_transients s h 0 0 s.time_remaining _

/-- The invariant holds at run start. -/
lemma burnInit_inv (c : BurnConfig) (hdraft : 0 ≤ c.boom_draft) :
    BurnInv (burnPrepareForModelRun c) := by
  have harea : 0 ≤ 0.3 * c.boom_length * (0.4125 * c.boom_length / 3) * 2 / 3 := by
    nlinarith [sq_nonneg c.boom_length]
  have hcap : 0 ≤ c.boom_draft / 36 *
      (0.3 * c.boom_length * (0.4125 * c.boom_length / 3) * 2 / 3) :=
    mul_nonneg (div_nonneg hdraft (by norm_num)) harea
  exact ⟨hcap, hcap, le_refl _, hdraft,
    fun bt hbt => Option.noConfusion hbt,
    Or.inl ⟨rfl, rfl, rfl, rfl⟩,
    fun hb => Bool.noConfusion hb,
    fun hbf => Bool.noConfusion hbf,
    fun _ bt hbt => Option.noConfusion hbt,
    fun htr => Bool.noConfusion htr,
    fun hcl => Bool.noConfusion hcl⟩

/-- States the Burn operation can reach: the run-prepared initial state
(runs only start when `speed ≠ 0`, since `prepare_for_model_run` divides
by the speed), followed by any sequence of `prepare_for_model_step` calls
on physically valid containers.  `weather_elements` mutates only the
spill container, never the Burn state, so it needs no constructor. -/
inductive BurnReach (c : BurnConfig) : BurnState → Prop where
  | init (hspeed : c.speed ≠ 0) : BurnReach c (burnPrepareForModelRun c)
  | step (s : BurnState) (sc : SC) (time_step model_time : ℚ) (fuel : Nat)
      (h : BurnReach c s) (hsc : ValidSC sc) :
      BurnReach c (burnPrepareForModelStep sc time_step model_time fuel s).1

/-- Every reachable Burn state satisfies the invariant. -/
lemma burnReach_inv (c : BurnConfig) (hdraft : 0 ≤ c.boom_draft)
    (s : BurnState) (h : BurnReach c s) : BurnInv s := by
  induction h with
  | init hspeed => exact burnInit_inv c hdraft
  | step s sc ts mt fuel h hsc ih => exact burnStep_inv sc ts mt fuel s hsc ih

/-! ## The Skim operation (roc.py lines 849-1109)

Several statements in `Skim`'s per-step code refer to names that are
never defined (`self_time_remaining` at line 964, `self.swath` at line
979, `self.offload` at line 1057, `self_ofload_remaining` at line 1064,
`self._ts_oil_collected` whose only assignment is itself unreachable), so
the corresponding handlers abort with `NameError`/`AttributeError` at
those points; the embedding places the error markers exactly there, after
the mutations the source performs first. -/

structure SkimConfig where
  speed : ℚ
  storage : ℚ
  swath_width : ℚ
  throughput : ℚ
  nameplate_pump : ℚ
  recovery : ℚ
  recovery_ef : ℚ
  decant : ℚ
  decant_pump : ℚ
  rig_time : ℚ
  transit_time : ℚ
  barge : Bool
  is_on : Bool
  timeseries : List (ℚ × ℚ)
deriving DecidableEq, Repr

structure SkimState where
  speed : ℚ
  storage : ℚ
  swath_width : ℚ
  throughput : ℚ
  nameplate_pump : ℚ
  recovery : ℚ
  recovery_ef : ℚ
  decant : ℚ
  decant_pump : ℚ
  rig_time : ℚ
  transit_time : ℚ
  barge : Bool
  storage_remaining : ℚ
  coverage_rate : ℚ
  maximum_effective_swath : ℚ
  is_collecting : Bool
  is_transiting : Bool
  is_offloading : Bool
  time_remaining : ℚ
  transit_remaining : ℚ
  offload_remaining : ℚ
  active : Bool
  is_on : Bool
  timeseries : List (ℚ × ℚ)
deriving DecidableEq, Repr

/-- `Skim.prepare_for_model_run` (roc.py lines 929-945): reset storage to
the configured capacity, derive the coverage rate, set collecting.
(Ledger registration on the spill container is the `weather_elements`
side.)  `barge` records whether `barge_arrival` is a `datetime.date`. -/
def skimPrepareForModelRun (c : SkimConfig) : SkimState :=
  { speed := c.speed
    storage := c.storage
    swath_width := c.swath_width
    throughput := c.throughput
    nameplate_pump := c.nameplate_pump
    recovery := c.recovery
    recovery_ef := c.recovery_ef
    decant := c.decant
    decant_pump := c.decant_pump
    rig_time := c.rig_time
    transit_time := c.transit_time
    barge := c.barge
    storage_remaining := c.storage
    coverage_rate := c.swath_width * c.speed * 0.00233
    maximum_effective_swath := 0
    is_collecting := true
    is_transiting := false
    is_offloading := false
    time_remaining := 0
    transit_remaining := 0
    offload_remaining := 0
    active := false
    is_on := c.is_on
    timeseries := c.timeseries }

/-- `Skim._collect` (roc.py lines 975-1045): after computing the maximum
effective swath (whose plain-float division raises `ZeroDivisionError`
when `63.13 ·speed·thickness·throughput = 0`), line 979 compares
`self.swath`, an attribute the class never assigns (it defines
`swath_width`), so every call aborts with `AttributeError` there; lines
980-1045 — including the storage update — are unreachable. -/
def skimCollect (sc : SC) (s : SkimState) : SkimState × Option PyErr :=
  let thickness := getThickness sc
  if 63.13 * s.speed * thickness * s.throughput = 0 then
    (s, some PyErr.zeroDivisionError)
  else
    ({ s with maximum_effective_swath :=
        s.nameplate_pump * s.recovery /
          (63.13 * s.speed * thickness * s.throughput) },
     some PyErr.attributeError)

/-- `Skim._transit` (roc.py lines 1047-1060): when the transit leg
completes, the handler updates the flags and then evaluates
`self.offload`, an attribute that is never assigned (only `offload_to`
and the `offload` unit name exist), raising `AttributeError`. -/
def skimTransit (s : SkimState) : SkimState × Option PyErr :=
  if s.transit_remaining < s.time_remaining then
    let s1 := { s with time_remaining := s.time_remaining - s.transit_remaining
                       transit_remaining := 0
                       is_transiting := false }
    let s2 := if s1.storage_remaining = 0 then { s1 with is_offloading := true }
              else { s1 with is_collecting := true }
    (s2, some PyErr.attributeError)
  else
    ({ s with transit_remaining := s.transit_remaining - s.time_remaining
              time_remaining := 0 }, none)

/-- `Skim._offload` (roc.py lines 1062-1071): the completing branch reads
the undefined name `self_ofload_remaining` before mutating anything. -/
def skimOffload (s : SkimState) : SkimState × Option PyErr :=
  if s.offload_remaining < s.time_remaining then
    (s, some PyErr.nameError)
  else
    ({ s with offload_remaining := s.offload_remaining - s.time_remaining
              time_remaining := 0 }, none)

/-- The barge-variant loop of `Skim.prepare_for_model_step` (roc.py lines
960-962): repeatedly collect while budget remains.  Fuel models the
unbounded `while`. -/
def skimLoopBarge (sc : SC) : Nat → SkimState → SkimState × Option PyErr
  | 0, s => (s, none)
  | fuel + 1, s =>
    if 0 < s.time_remaining then
      if s.is_collecting then
        match skimCollect sc s with
        | (s1, none) => skimLoopBarge sc fuel s1
        | (s1, some e) => (s1, some e)
      else skimLoopBarge sc fuel s
    else (s, none)

/-- Unfolding lemma for one iteration of the barge loop. -/
lemma skimLoopBarge_succ (sc : SC) (fuel : Nat) (s : SkimState) :
    skimLoopBarge sc (fuel + 1) s =
      if 0 < s.time_remaining then
        if s.is_collecting then
          match skimCollect sc s with
          | (s1, none) => skimLoopBarge sc fuel s1
          | (s1, some e) => (s1, some e)
        else skimLoopBarge sc fuel s
      else (s, none) := rfl

/-- `Skim.prepare_for_model_step` (roc.py lines 947-972): gate on the
activity window, set the time budget, then either run the barge loop or
— in the ordinary case — evaluate the `while` condition
`self_time_remaining > 0.` (line 964), an undefined name, raising
`NameError` immediately. -/
def skimPrepareForModelStep (sc : SC) (time_step model_time : ℚ) (fuel : Nat)
    (s : SkimState) : SkimState × Option PyErr :=
  let s := { s with active := s.is_on && isActive s.timeseries model_time time_step }
  if s.active then
    let s := { s with time_remaining := time_step }
    if s.barge then skimLoopBarge sc fuel s
    else (s, some PyErr.nameError)
  else (s, none)

/-- The part of the spill container `Skim.weather_elements` touches. -/
structure SkimSC where
  num_elements : Nat
  data : MassData
deriving DecidableEq, Repr

/-- `Skim.weather_elements` (roc.py lines 1073-1101): returns at once
when inactive or empty; otherwise, for a nonempty batch, it reads
`self._ts_oil_collected` (line 1086) — an attribute whose only
assignment (line 1039) sits in the unreachable part of `_collect` — and
aborts with `AttributeError` (and line 1088 would reference the undefined
name `amount` even if it were set). -/
def skimWeatherElements (s : SkimState) (sc : SkimSC) : SkimSC × Option PyErr :=
  if s.active = false ∨ sc.num_elements = 0 then (sc, none)
  else if sc.data.mass.length = 0 then (sc, none)
  else (sc, some PyErr.attributeError)

/-- States the Skim operation can reach from its run-prepared state. -/
inductive SkimReach (c : SkimConfig) : SkimState → Prop where
  | init : SkimReach c (skimPrepareForModelRun c)
  | step (s : SkimState) (sc : SC) (time_step model_time : ℚ) (fuel : Nat)
      (h : SkimReach c s) :
      SkimReach c (skimPrepareForModelStep sc time_step model_time fuel s).1

/-- `Skim._collect` leaves both storage fields unchanged (the storage
update at roc.py line 1045 is dead code). -/
lemma skimCollect_storage (sc : SC) (s : SkimState) :
    (skimCollect sc s).1.storage_remaining = s.storage_remaining ∧
    (skimCollect sc s).1.storage = s.storage := by
  simp only [skimCollect]
  split_ifs <;> exact ⟨rfl, rfl⟩

/-- The barge loop leaves both storage fields unchanged. -/
lemma skimLoopBarge_storage (sc : SC) :
    ∀ (fuel : Nat) (s : SkimState),
      (skimLoopBarge sc fuel s).1.storage_remaining = s.storage_remaining ∧
      (skimLoopBarge sc fuel s).1.storage = s.storage := by
  intro fuel
  induction fuel with
  | zero => intro s; exact ⟨rfl, rfl⟩
  | succ n ih =>
    intro s
    rw [skimLoopBarge_succ]
    split_ifs with h1 h2
    · cases hcoll : skimCollect sc s with
      | mk s1 e =>
        have hst : s1.storage_remaining = s.storage_remaining ∧
            s1.storage = s.storage := by
          have := skimCollect_storage sc s
          rw [hcoll] at this
          exact this
        cases e with
        | none => exact ⟨(ih s1).1.trans hst.1, (ih s1).2.trans hst.2⟩
        | some e => exact hst
    · exact ih s
    · exact ⟨rfl, rfl⟩

/-- Every reachable Skim state still has its storage untouched:
`storage_remaining` equals the configured storage. -/
lemma skimReach_storage (c : SkimConfig) (s : SkimState)
    (h : SkimReach c s) :
    s.storage_remaining = c.storage ∧ s.storage = c.storage := by
  induction h with
  | init => exact ⟨rfl, rfl⟩
  | step s sc ts mt fuel h ih =>
    simp only [skimPrepareForModelStep]
    split_ifs with h1 h2
    · have := skimLoopBarge_storage sc fuel
        { s with active := s.is_on && isActive s.timeseries mt ts,
                 time_remaining := ts }
      exact ⟨this.1.trans ih.1, this.2.trans ih.2⟩
    · exact ih
    · exact ih

/-- C3: across every sequence of steps from run start (on physically
valid containers, nonnegative boom draft / storage configuration), the
resource counters stay inside `[0, capacity]`: `boom_capacity_remaining`
within `[0, boom_capacity]` for Burn, and `storage_remaining` within
`[0, storage]` for Skim. -/
theorem c3_resource_counters_bounded :
    (∀ c : BurnConfig, 0 ≤ c.boom_draft → ∀ s, BurnReach c s →
      0 ≤ s.boom_capacity_remaining ∧
        s.boom_capacity_remaining ≤ s.boom_capacity) ∧
    (∀ c : SkimConfig, 0 ≤ c.storage → ∀ s, SkimReach c s →
      0 ≤ s.storage_remaining ∧ s.storage_remaining ≤ s.storage) := by
  constructor
  · intro c hdraft s h
    have hi := burnReach_inv c hdraft s h
    exact ⟨hi.rem_nonneg, hi.rem_le_cap⟩
  · intro c hst s h
    obtain ⟨h1, h2⟩ := skimReach_storage c s h
    constructor
    · rw [h1]; exact hst
    · rw [h1, h2]

/-- A Burn configuration used to witness the resource bounds. -/
def burnCfgW : BurnConfig :=
  { offset := 0, boom_length := 10, boom_draft := 36, speed := 1,
    throughput := 1, is_on := true, timeseries := [] }

/-- A Skim configuration used to witness the resource bounds. -/
def skimCfgW : SkimConfig :=
  { speed := 1, storage := 10, swath_width := 1, throughput := 1,
    nameplate_pump := 1, recovery := 1, recovery_ef := 1, decant := 0,
    decant_pump := 1, rig_time := 1, transit_time := 1, barge := false,
    is_on := true, timeseries := [] }

/-- Witness for C3 at the two run-prepared initial states. -/
theorem c3_resource_counters_bounded_witness :
    (0 ≤ (burnPrepareForModelRun burnCfgW).boom_capacity_remaining ∧
      (burnPrepareForModelRun burnCfgW).boom_capacity_remaining ≤
        (burnPrepareForModelRun burnCfgW).boom_capacity) ∧
    (0 ≤ (skimPrepareForModelRun skimCfgW).storage_remaining ∧
      (skimPrepareForModelRun skimCfgW).storage_remaining ≤
        (skimPrepareForModelRun skimCfgW).storage) :=
  ⟨c3_resource_counters_bounded.1 burnCfgW (by norm_num [burnCfgW]) _
      (BurnReach.init (by norm_num [burnCfgW])),
    c3_resource_counters_bounded.2 skimCfgW (by norm_num [skimCfgW]) _
      SkimReach.init⟩

/-! ## Claim C1 -/

/-- A container-statistics value for calls whose body never reads it. -/
def scAny : SC :=
  { mass_mean := 0, area_mean := 0, any_area := false,
    frac_water_mean := 0, density := 1 }

/-- A validly constructed, enabled Skim operation whose activity window
covers the step (no barge arrival configured). -/
def skimCfgC1 : SkimConfig :=
  { speed := 1, storage := 10, swath_width := 1, throughput := 1,
    nameplate_pump := 1, recovery := 1, recovery_ef := 1, decant := 0,
    decant_pump := 1, rig_time := 1, transit_time := 1, barge := false,
    is_on := true, timeseries := [(0, 7200)] }

/-- An active Skim state paired with a nonempty container for the
`weather_elements` half of C1. -/
def skimStateC1 : SkimState :=
  { skimPrepareForModelRun skimCfgC1 with active := true }

/-- C1 (per-step entry points do raise): on a validly constructed, active
Skim operation, `prepare_for_model_step` raises `NameError` (the
undefined name `self_time_remaining`, roc.py line 964), and
`weather_elements` on a nonempty container raises `AttributeError` (the
never-assigned `_ts_oil_collected`, roc.py line 1086) — refuting the
guarantee that no runtime condition inside the per-step phase code aborts
execution. -/
theorem c1_skim_step_raises :
    (skimPrepareForModelStep scAny 3600 0 5
      (skimPrepareForModelRun skimCfgC1)).2 = some PyErr.nameError ∧
    (skimWeatherElements skimStateC1 ⟨3, ⟨[1], [[1]]⟩⟩).2 =
      some PyErr.attributeError := by
  constructor
  · norm_num [skimPrepareForModelStep, skimPrepareForModelRun, isActive,
      skimCfgC1]
  · norm_num [skimWeatherElements, skimStateC1, skimPrepareForModelRun,
      skimCfgC1]

/-! ## Claim C10 -/

/-- C10: `weather_elements` on an inactive operation or an empty spill
container returns immediately, leaving the substance batch and the
mass-balance ledger completely unchanged — for both Burn and Skim. -/
theorem c10_weather_elements_frame :
    (∀ (s : BurnState) (sc : BurnSC), s.active = false ∨ sc.num_elements = 0 →
      burnWeatherElements s sc = sc) ∧
    (∀ (s : SkimState) (sc : SkimSC), s.active = false ∨ sc.num_elements = 0 →
      skimWeatherElements s sc = (sc, none)) := by
  constructor
  · intro s sc h
    simp only [burnWeatherElements]
    rw [if_pos h]
  · intro s sc h
    simp only [skimWeatherElements]
    rw [if_pos h]

/-- Witness for C10: the freshly run-prepared (inactive) operations leave
a nonempty container untouched. -/
theorem c10_weather_elements_frame_witness :
    burnWeatherElements (burnPrepareForModelRun burnCfgW)
      ⟨3, ⟨[1], [[1]]⟩, ⟨0, 0, 0⟩⟩ = ⟨3, ⟨[1], [[1]]⟩, ⟨0, 0, 0⟩⟩ ∧
    skimWeatherElements (skimPrepareForModelRun skimCfgW)
      ⟨3, ⟨[1], [[1]]⟩⟩ = (⟨3, ⟨[1], [[1]]⟩⟩, none) :=
  ⟨c10_weather_elements_frame.1 _ _ (Or.inl rfl),
    c10_weather_elements_frame.2 _ _ (Or.inl rfl)⟩

/-! ## Platform lifecycle and the Disperse operation (roc.py 149-546)

`Platform._all_states` is a per-type transition dict; a missing key would
raise `KeyError`, so the transition function is `Option`-valued.  The
Python keyword-clashing state name `return` is spelled `ret`. -/

inductive PlatType where
  | vessel
  | aircraft
deriving DecidableEq, Repr

inductive PlatformState where
  | cascade
  | refuel
  | reload
  | taxi_takeoff
  | en_route
  | at_site
  | disperse
  | ret
  | landing_taxi
deriving DecidableEq, Repr

/-- The aircraft transition dict (roc.py lines 175-183). -/
def aircraft_next : PlatformState → Option PlatformState
  | .cascade => some .refuel
  | .refuel => some .reload
  | .reload => some .taxi_takeoff
  | .taxi_takeoff => some .en_route
  | .en_route => some .at_site
  | .at_site => some .disperse
  | .disperse => some .ret
  | .ret => some .landing_taxi
  | .landing_taxi => some .refuel

/-- The vessel transition dict (roc.py lines 185-191): note `return` maps
back to `refuel`, not to `cascade`. -/
def vessel_next : PlatformState → Option PlatformState
  | .cascade => some .refuel
  | .refuel => some .reload
  | .reload => some .en_route
  | .en_route => some .at_site
  | .at_site => some .disperse
  | .disperse => some .ret
  | .ret => some .refuel
  | .taxi_takeoff => none
  | .landing_taxi => none

/-- `Platform.goto_next_state` dispatches on the platform type. -/
def platform_next : PlatType → PlatformState → Option PlatformState
  | .vessel, s => vessel_next s
  | .aircraft, s => aircraft_next s

/-- Iterating `goto_next_state` on a vessel platform from `cascade`. -/
def vesselIterate : Nat → Option PlatformState
  | 0 => some PlatformState.cascade
  | n + 1 => (vesselIterate n).bind vessel_next

/-- The platform attributes `Disperse.prepare_for_model_step` touches. -/
structure DispPlatform where
  ptype : PlatType
  state : PlatformState
  ttns : ℚ
  has_payload : Bool
  disp_remaining : ℚ
  application_speed : ℚ
  swath_width : ℚ
deriving DecidableEq, Repr

/-- `Platform.get_state_time` (roc.py lines 214-223) builds the dict of
per-state duration expressions but has no `return` statement, so every
call returns `None`. -/
def get_state_time (_p : DispPlatform) (_dist : ℚ) (_payload : Bool) :
    Option ℚ := none

/-- The Disperse attributes its per-step code touches. -/
structure DisperseOp where
  platform : DispPlatform
  transit : ℚ
  dosage : ℚ
deriving DecidableEq, Repr

/-- `Disperse.prepare_for_model_step` (roc.py lines 527-546): subtract
the step from `_ttns`; on underrun, compute the overshoot `extra_time`
(line 534, never used afterwards), advance the platform state, call
`get_state_time` (always `None`, triggering the dispersion branch that
computes `achieved_pump_rate` and discards it, lines 538-540), and set
`_ttns` to the literal `5` (line 543); on exact zero, advance and set the
same literal. -/
def dispersePrepareForModelStep (op : DisperseOp) (time_step : ℚ) :
    DisperseOp × Option PyErr :=
  let p := op.platform
  let p := { p with ttns := p.ttns - time_step }
  if p.ttns < 0 then
    let _extra_time := |p.ttns|
    match platform_next p.ptype p.state with
    | none => ({ op with platform := p }, some PyErr.keyError)
    | some s2 =>
      let p := { p with state := s2 }
      let _st := get_state_time p op.transit p.has_payload
      let _achieved_pump_rate := op.dosage * p.application_speed * p.swath_width
      ({ op with platform := { p with ttns := 5 } }, none)
  else if p.ttns = 0 then
    match platform_next p.ptype p.state with
    | none => ({ op with platform := p }, some PyErr.keyError)
    | some s2 =>
      ({ op with platform := { p with state := s2, ttns := 5 } }, none)
  else ({ op with platform := p }, none)

/-! ## Claim C7 -/

/-- A vessel platform in `refuel` with 10 seconds to the next state. -/
def disperseOpC7 : DisperseOp :=
  { platform := { ptype := PlatType.vessel, state := PlatformState.refuel,
                  ttns := 10, has_payload := false, disp_remaining := 0,
                  application_speed := 1, swath_width := 1 },
    transit := 3, dosage := 1 }

/-- C7 (transition rule is stubbed): stepping a platform past its state
boundary sets `time_to_next_state` to the hardcoded constant `5`; a step
of 15 (overshoot 5) and a step of 615 (overshoot 605) produce the very
same state, so the overshoot is discarded rather than carried forward,
and the "new state's duration function" (`get_state_time`) in fact
returns `None` for every state. -/
theorem c7_disperse_hardcoded_duration :
    (dispersePrepareForModelStep disperseOpC7 15).2 = none ∧
    (dispersePrepareForModelStep disperseOpC7 15).1.platform.state =
      PlatformState.reload ∧
    (dispersePrepareForModelStep disperseOpC7 15).1.platform.ttns = 5 ∧
    dispersePrepareForModelStep disperseOpC7 615 =
      dispersePrepareForModelStep disperseOpC7 15 ∧
    get_state_time (dispersePrepareForModelStep disperseOpC7 15).1.platform
      disperseOpC7.transit false = none := by
  norm_num [dispersePrepareForModelStep, disperseOpC7, platform_next,
    vessel_next, get_state_time]

/-! ## Claim C8 -/

/-- C8 counterexample: after the full cycle of 7 transitions the vessel
platform stands at `refuel`, not `cascade` — the vessel cycle closes at
`refuel` (`return → refuel`), so the platform never returns to the
cascade state. -/
theorem c8_vessel_cycle_counterexample :
    vesselIterate 7 = some PlatformState.refuel ∧
    vesselIterate 7 ≠ some PlatformState.cascade := by
  decide

/-- Unfolding lemma for `vesselIterate`. -/
lemma vesselIterate_succ (n : Nat) :
    vesselIterate (n + 1) = (vesselIterate n).bind vessel_next := rfl

/-- C8 amended: repeatedly advancing a vessel platform from `cascade`
reaches `refuel` after 7 transitions and is periodic with period 6 from
then on; the `cascade` state is never re-entered (the cycle closes at
`refuel`). -/
theorem c8_vessel_cycle_closure :
    vesselIterate 7 = some PlatformState.refuel ∧
    (∀ n, vesselIterate (n + 7) = vesselIterate (n + 1)) ∧
    (∀ n, vesselIterate (n + 1) ≠ some PlatformState.cascade) := by
  have horbit : ∀ m, vesselIterate (m + 1) = some PlatformState.refuel ∨
      vesselIterate (m + 1) = some PlatformState.reload ∨
      vesselIterate (m + 1) = some PlatformState.en_route ∨
      vesselIterate (m + 1) = some PlatformState.at_site ∨
      vesselIterate (m + 1) = some PlatformState.disperse ∨
      vesselIterate (m + 1) = some PlatformState.ret := by
    intro m
    induction m with
    | zero => left; decide
    | succ k ih =>
      rw [vesselIterate_succ (k + 1)]
      rcases ih with h | h | h | h | h | h <;> rw [h] <;> decide
  refine ⟨by decide, ?_, ?_⟩
  · intro n
    induction n with
    | zero => decide
    | succ m ih =>
      show (vesselIterate (m + 7)).bind vessel_next =
        (vesselIterate (m + 1)).bind vessel_next
      rw [ih]
  · intro n
    rcases horbit n with h | h | h | h | h | h <;> rw [h] <;> decide
